import Mathlib

/-!
Shallow embedding of the unit-conversion toolkit (`lib/env/__init__.py`) and the
user-module loader (`lib/userfunctions.py`) of the smarthome repository.

Modelling conventions:
* Python floats are modelled as rationals (`ℚ`, exact arithmetic); Python ints as `ℤ`.
* Python strings are Lean `String`s; the `str` methods the source uses
  (`split`, `endswith`, `lower`) are re-implemented below on the character list so
  that they compute by kernel reduction (`lower` covers the ASCII range, which is
  all the source's language codes need).
* Fallible code paths (exceptions caught by the source) surface as
  `Option`/`Except`/sentinel values, exactly as the corresponding `except`
  branch returns them.
* The loader's interaction with the runtime's import machinery (whether a
  dynamic import succeeds, whether `importlib.reload` raises) is a parameter
  (an oracle function) of the embedded operations.
-/

/-! ### Module-level constants of `lib/env/__init__.py` -/

/-- `_mile = 1609.344` — meters in one mile (module constant, line 43). -/
def mile_const : ℚ := 1609344 / 1000

/-- `_nautical_mile = 1852` — meters in one nautical mile (module constant, line 44). -/
def nautical_mile_const : ℚ := 1852

/-! ### Module-level speed conversion functions of `lib/env/__init__.py` -/

/-- Free function `kn_to_kmh(speed) = speed * _nautical_mile` (lines 51–58). -/
def kn_to_kmh (speed : ℚ) : ℚ := speed * nautical_mile_const

/-- Free function `kmh_to_kn(speed) = speed / _nautical_mile` (lines 61–68). -/
def kmh_to_kn (speed : ℚ) : ℚ := speed / nautical_mile_const

/-- Free function `ms_to_kmh(speed) = speed * 3.6` (lines 71–82); the
`except` branch is unreachable for numeric input. -/
def ms_to_kmh (speed : ℚ) : ℚ := speed * (36 / 10)

/-- Free function `kmh_to_ms(speed) = speed / 3.6` (lines 85–96). -/
def kmh_to_ms (speed : ℚ) : ℚ := speed / (36 / 10)

/-- Free function `kmh_to_mps(speed) = speed / 3.6 / _mile` (lines 109–116). -/
def kmh_to_mps (speed : ℚ) : ℚ := speed / (36 / 10) / mile_const

/-! ### The `Env` class's static conversion methods (`lib/env/__init__.py`) -/

/-- `Env.kn_to_kmh(speed_in_kn) = speed_in_kn * 1.852` (static method, lines 414–422). -/
def Env.kn_to_kmh (speed_in_kn : ℚ) : ℚ := speed_in_kn * (1852 / 1000)

/-- `Env.kmh_to_kn(speed_in_kmh) = speed_in_kmh / 1.852` (static method, lines 425–433). -/
def Env.kmh_to_kn (speed_in_kmh : ℚ) : ℚ := speed_in_kmh / (1852 / 1000)

/-! ### Wind speed → Beaufort (`ms_to_bft`, lines 119–147, and
`Env.mps_to_beaufort`, lines 304–331)

The source computes `min(filter(lambda x: x[0] >= speed, table))[1]` over the
13-row threshold table, catching the `ValueError` that Python's `min` raises
on an empty sequence.  We model Python's `min` over 2-tuples (lexicographic
`<`, first minimum kept) and the empty-sequence exception as `none`. -/

/-- The 13-row Beaufort threshold table (identical literal in `ms_to_bft` and
`Env.mps_to_beaufort`). -/
def bft_table : List (ℚ × ℤ) :=
  [(3/10, 0), (16/10, 1), (34/10, 2), (55/10, 3), (8, 4), (108/10, 5),
   (139/10, 6), (172/10, 7), (208/10, 8), (245/10, 9), (285/10, 10),
   (327/10, 11), (999, 12)]

/-- Python's `<` on 2-tuples: lexicographic. -/
def tupleLt (a b : ℚ × ℤ) : Bool :=
  decide (a.1 < b.1) || (decide (a.1 = b.1) && decide (a.2 < b.2))

/-- Python's `min` over a list of 2-tuples: `none` models the `ValueError`
raised on an empty sequence; otherwise a left fold that keeps the first
minimum (a later element replaces the current best only when strictly
smaller). -/
def pyMin : List (ℚ × ℤ) → Option (ℚ × ℤ)
  | [] => none
  | x :: xs => some (xs.foldl (fun acc p => if tupleLt p acc then p else acc) x)

/-- Free function `ms_to_bft(speed)` (lines 119–147): `-1` is the sentinel
returned by the `except` branch when no table row matches. -/
def ms_to_bft (speed : ℚ) : ℤ :=
  match pyMin (bft_table.filter (fun x => decide (x.1 ≥ speed))) with
  | some r => r.2
  | none => -1

/-- Free function `kmh_to_bft(speed) = ms_to_bft(kmh_to_ms(speed))` (lines 150–159). -/
def kmh_to_bft (speed : ℚ) : ℤ := ms_to_bft (kmh_to_ms speed)

/-- Method `Env.mps_to_beaufort(speed_in_mps)` (lines 304–331): same lookup,
but the `except ValueError` branch returns `None` (modelled `none`). -/
def Env.mps_to_beaufort (speed_in_mps : ℚ) : Option ℤ :=
  (pyMin (bft_table.filter (fun x => decide (x.1 ≥ speed_in_mps)))).map (fun r => r.2)

/-! ### `Env.kmh_to_beaufort` (lines 334–343) and Python name resolution

The static method's body is `mps_to_beaufort(kmh_to_mps(speed_in_kmh))`.
Inside a `@staticmethod`, bare names resolve through the *module's* global
namespace (the class body is not part of the lookup chain).  We therefore
record the names bound at module level in `lib/env/__init__.py` and model the
`LOAD_GLOBAL` of `mps_to_beaufort` explicitly: an unbound name raises
`NameError`, which nothing in the method catches. -/

/-- The names bound at module level in `lib/env/__init__.py`: the imports,
constants, free functions and the `Env` class itself. -/
def envModuleGlobals : List String :=
  ["logging", "_logger", "_mile", "_nautical_mile",
   "kn_to_kmh", "kmh_to_kn", "ms_to_kmh", "kmh_to_ms", "mps_to_kmh",
   "kmh_to_mps", "ms_to_bft", "kmh_to_bft", "bft_to_text",
   "_miles_to_meter", "_nauticalmiles_to_meter", "_meter_to_miles",
   "_meter_to_nauticalmiles", "Env"]

/-- Static method `Env.kmh_to_beaufort(speed_in_kmh)` (lines 334–343):
`Except.error` models an exception escaping to the caller.  The body's
`mps_to_beaufort` is looked up among the module's globals; were it bound, the
call would return `mps_to_beaufort(kmh_to_mps(speed_in_kmh))`. -/
def Env.kmh_to_beaufort (speed_in_kmh : ℚ) : Except String (Option ℤ) :=
  if ("mps_to_beaufort") ∈ envModuleGlobals then
    Except.ok (Env.mps_to_beaufort (kmh_to_mps speed_in_kmh))
  else
    Except.error ("NameError: name mps_to_beaufort is not defined")

/-! ### String helpers (character-level models of the `str` methods used) -/

/-- Characters of `s.split(".")[0]`: everything before the first `'.'`. -/
def splitHeadAux : List Char → List Char
  | [] => []
  | c :: cs => if c = '.' then [] else c :: splitHeadAux cs

/-- Python `f.split(".")[0]`: the part of `f` before the first dot (all of
`f` when it has no dot). -/
def pySplitHead (s : String) : String := ⟨splitHeadAux s.data⟩

/-- Python `s.endswith(sfx)`. -/
def pyEndsWith (s sfx : String) : Bool :=
  decide (sfx.data.reverse = s.data.reverse.take sfx.data.length)

/-- ASCII lower-casing of one character (what `str.lower` does on the ASCII
range, which covers the source's language codes). -/
def lowerChar (c : Char) : Char :=
  if 'A' ≤ c ∧ c ≤ 'Z' then Char.ofNat (c.toNat + 32) else c

/-- Python `s.lower()` on ASCII strings. -/
def pyToLower (s : String) : String := ⟨s.data.map lowerChar⟩

/-! ### `bft_to_text` (lines 162–208) -/

/-- The German 13-entry description table (lines 171–183). -/
def beaufort_descriptions_de : List String :=
  ["Windstille", "leiser Zug", "leichte Brise", "schwacher Wind",
   "mäßiger Wind", "frischer Wind", "starker Wind", "steifer Wind",
   "stürmischer Wind", "Sturm", "schwerer Sturm", "orkanartiger Sturm",
   "Orkan"]

/-- The English 13-entry description table (lines 185–197). -/
def beaufort_descriptions_en : List String :=
  ["Calm", "Light air", "Light breeze", "Gentle breeze", "Moderate breeze",
   "Fresh breeze", "Strong breeze", "High wind", "Fresh Gale", "Strong Gale",
   "Storm", "Violent storm", "Hurricane-force"]

/-- A Python runtime value passed as the `bft` argument: either an `int` or
anything else (`type(bft) is not int`). -/
inductive PyValue where
  | intVal (n : ℤ)
  | nonIntVal (tag : String)
deriving DecidableEq

/-- Free function `bft_to_text(bft, language)` (lines 162–208): a non-`int`
argument or one outside `[0, 12]` is logged and yields `''`; otherwise the
`bft`-th entry of the German table when `language.lower() == 'de'`, of the
English table for every other language code. -/
def bft_to_text (bft : PyValue) (language : String) : String :=
  match bft with
  | PyValue.nonIntVal _ => ""
  | PyValue.intVal n =>
    if n < 0 ∨ 12 < n then ""
    else if pyToLower language = "de" then
      beaufort_descriptions_de.getD n.toNat ("")
    else
      beaufort_descriptions_en.getD n.toNat ("")

/-! ### Wind direction (lines 442–457) -/

/-- Python's float `%`: for a positive modulus the result lies in `[0, m)`. -/
def pymod (x m : ℚ) : ℚ := x - m * ⌊x / m⌋

/-- Python's `int()` on a float: truncation toward zero. -/
def pyint (q : ℚ) : ℤ := if 0 ≤ q then ⌊q⌋ else ⌈q⌉

/-- The 9-entry 8-point label array (line 445). -/
def direction_array8 : List String :=
  ["N", "NO", "O", "SO", "S", "SW", "W", "NW", "N"]

/-- The 17-entry 16-point label array (line 454). -/
def direction_array16 : List String :=
  ["N", "NNO", "NO", "ONO", "O", "OSO", "SO", "SSO", "S", "SSW", "SW",
   "WSW", "W", "WNW", "NW", "NNW", "N"]

/-- Python list indexing `l[i]`: negative indices count from the end;
out-of-range access raises `IndexError` (modelled `none`). -/
def pyGetItem (l : List String) (i : ℤ) : Option String :=
  if 0 ≤ i then l.get? i.toNat
  else if 0 ≤ i + l.length then l.get? (i + l.length).toNat
  else none

/-- Static method `Env.get_wind_direction8(deg)` (lines 442–448):
`direction_array[int((deg % 360 + 22.5) / 45)]`. -/
def Env.get_wind_direction8 (deg : ℚ) : Option String :=
  pyGetItem direction_array8 (pyint ((pymod deg 360 + 45/2) / 45))

/-- Static method `Env.get_wind_direction16(deg)` (lines 451–457):
`direction_array[int((deg % 360 + 11.25) / 22.5)]`. -/
def Env.get_wind_direction16 (deg : ℚ) : Option String :=
  pyGetItem direction_array16 (pyint ((pymod deg 360 + 45/4) / (45/2)))

/-! ### The user-module loader (`lib/userfunctions.py`) -/

/-- The registry computed by `init_lib` (lines 75–106) from the listing of
`<base_dir>/functions`: keep the names ending in `.py`, map each to
`f.split(".")[0]`, and sort (Python's `sorted`; stable, but string `≤` is
antisymmetric so any sorting algorithm yields the same list). -/
def init_lib (listing : List String) : List String :=
  List.mergeSort ((listing.filter (fun f => pyEndsWith f (".py"))).map pySplitHead)
    (fun a b => a ≤ b)

/-- Modelled from the spec: the "extension-stripped base name" of a file
ending in `.py` — the file name with the final `".py"` removed.  (The spec's
data-model section describes registry names this way; this definition exists
only to compare the spec's description with the source's `f.split(".")[0]`.) -/
def spec_strip_extension (f : String) : String :=
  ⟨f.data.take (f.data.length - 3)⟩

/-- A user module object: its optional `_VERSION` and `_DESCRIPTION`
attributes (`none` = attribute absent). -/
structure UserModule where
  version : Option String
  description : Option String
deriving DecidableEq

/-- The loader's process-wide state: `_user_modules` (the registry) and the
set of module names currently bound in the module's global namespace by a
successful `import_user_module`. -/
structure UFState where
  user_modules : List String
  bound : List String
deriving DecidableEq

/-- Outcome of executing `importlib.reload(<name>)` on a *bound* name:
success, an exception whose `str` is exactly `"name '<name>' is not
defined"`, or any other exception. -/
inductive ExecOutcome where
  | success
  | errNameNotDefined
  | errOther (msg : String)
deriving DecidableEq

/-- `import_user_module(m)` (lines 38–72).  `importModule` is the runtime's
`importlib.import_module`, `none` modelling an exception during import (the
`except` branch logs and returns `False`).  On success the module name is
bound in the globals; then each of `_VERSION` and `_DESCRIPTION` is read,
the `except AttributeError` branch *writing the placeholder into the module
object*.  The result carries the success flag, the new loader state, and on
success the (possibly mutated) module object together with the version and
description strings used for the log message. -/
def import_user_module (importModule : String → Option UserModule)
    (st : UFState) (m : String) : Bool × UFState × Option (UserModule × String × String) :=
  match importModule m with
  | none => (false, st, none)
  | some md =>
    let vp := match md.version with
      | some s => (md, s)
      | none => ({ md with version := some ("?.?.?") }, "?.?.?")
    let dp := match vp.1.description with
      | some s => (vp.1, s)
      | none => ({ vp.1 with description := some ("?") }, "?")
    (true, { st with bound := m :: st.bound }, some (dp.1, vp.2, dp.2))

/-- `reload(userlib)` (lines 114–138).  An unregistered name logs an error
and returns `False`.  For a registered name, `exec("importlib.reload(<name>)")`
raises `NameError` with message `"name '<name>' is not defined"` when the
name is not bound in the globals; otherwise the oracle `reloadOutcome` gives
the runtime's behaviour.  The not-defined message triggers the fallback to
`import_user_module`; any other exception logs an error and returns `False`
(the old module object stays bound). -/
def reload (importModule : String → Option UserModule)
    (reloadOutcome : String → ExecOutcome) (st : UFState) (userlib : String) :
    Bool × UFState :=
  if userlib ∈ st.user_modules then
    match (if userlib ∈ st.bound then reloadOutcome userlib
           else ExecOutcome.errNameNotDefined) with
    | ExecOutcome.success => (true, st)
    | ExecOutcome.errNameNotDefined =>
      let r := import_user_module importModule st userlib
      (r.1, r.2.1)
    | ExecOutcome.errOther _ => (false, st)
  else
    (false, st)

/-! ## Helper lemmas about the table lookup -/

theorem bft_table_pairwise : bft_table.Pairwise (fun a b => a.1 < b.1) := by
  norm_num [bft_table, List.pairwise_cons]

theorem bft_table_mono :
    ∀ a ∈ bft_table, ∀ b ∈ bft_table, a.1 ≤ b.1 → a.2 ≤ b.2 := by
  norm_num [bft_table, List.forall_mem_cons]

theorem bft_table_range : ∀ a ∈ bft_table, 0 ≤ a.2 ∧ a.2 ≤ 12 := by
  norm_num [bft_table, List.forall_mem_cons]

theorem bft_table_max : ∀ a ∈ bft_table, a.1 ≤ 999 := by
  norm_num [bft_table, List.forall_mem_cons]

theorem bft_table_last : ((999 : ℚ), (12 : ℤ)) ∈ bft_table := by
  norm_num [bft_table]

/-- The fold inside `pyMin` keeps the seed when the seed's first component is
strictly below every element's. -/
theorem pyMin_foldl_keep (x : ℚ × ℤ) (xs : List (ℚ × ℤ)) (h : ∀ y ∈ xs, x.1 < y.1) :
    xs.foldl (fun acc p => if tupleLt p acc then p else acc) x = x := by
  induction xs with
  | nil => rfl
  | cons y ys ih =>
    have hxy : x.1 < y.1 := h y (List.mem_cons_self y ys)
    have hlt : tupleLt y x = false := by
      simp only [tupleLt, Bool.or_eq_false_iff, Bool.and_eq_false_iff,
        decide_eq_false_iff_not]
      exact ⟨not_lt.mpr hxy.le, Or.inl (ne_of_gt hxy)⟩
    simp only [List.foldl_cons, hlt, Bool.false_eq_true, if_false]
    exact ih (fun y hy => h y (List.mem_cons_of_mem _ hy))

/-- On a list strictly sorted by first component, Python's `min` is the head. -/
theorem pyMin_eq_head (l : List (ℚ × ℤ)) (h : l.Pairwise (fun a b => a.1 < b.1)) :
    pyMin l = l.head? := by
  cases l with
  | nil => rfl
  | cons x xs =>
    have hx : ∀ y ∈ xs, x.1 < y.1 := (List.pairwise_cons.mp h).1
    simp only [pyMin, List.head?]
    exact congrArg some (pyMin_foldl_keep x xs hx)

/-- The head of a filtered list is the first match. -/
theorem head_filter_eq_find {α : Type} (p : α → Bool) (l : List α) :
    (l.filter p).head? = l.find? p := by
  induction l with
  | nil => rfl
  | cons a as ih =>
    by_cases h : p a
    · simp [List.filter_cons, h]
    · simp [List.filter_cons, h, ih]

/-- `ms_to_bft` as a first-match search over the sorted table. -/
theorem ms_to_bft_eq_find (speed : ℚ) :
    ms_to_bft speed =
      match bft_table.find? (fun x => decide (x.1 ≥ speed)) with
      | some r => r.2
      | none => -1 := by
  unfold ms_to_bft
  rw [pyMin_eq_head _ (bft_table_pairwise.sublist (List.filter_sublist _)),
    head_filter_eq_find]

/-- `Env.mps_to_beaufort` as a first-match search over the sorted table. -/
theorem mps_to_beaufort_eq_find (speed : ℚ) :
    Env.mps_to_beaufort speed =
      (bft_table.find? (fun x => decide (x.1 ≥ speed))).map (fun r => r.2) := by
  unfold Env.mps_to_beaufort
  rw [pyMin_eq_head _ (bft_table_pairwise.sublist (List.filter_sublist _)),
    head_filter_eq_find]

/-- On a list strictly sorted by threshold, the first row whose threshold is
`≥ speed` is the matching row of minimal threshold. -/
theorem find_min_of_sorted {l : List (ℚ × ℤ)}
    (hl : l.Pairwise (fun a b => a.1 < b.1)) (speed : ℚ) {r : ℚ × ℤ}
    (h : l.find? (fun x => decide (x.1 ≥ speed)) = some r) :
    r ∈ l ∧ speed ≤ r.1 ∧ ∀ q ∈ l, speed ≤ q.1 → r.1 ≤ q.1 := by
  induction l with
  | nil => simp at h
  | cons a as ih =>
    obtain ⟨ha, has⟩ := List.pairwise_cons.mp hl
    by_cases hp : a.1 ≥ speed
    · rw [List.find?_cons_of_pos _ (by simpa using hp)] at h
      obtain rfl : a = r := Option.some.inj h
      refine ⟨List.mem_cons_self a as, hp, ?_⟩
      intro q hq hsq
      rcases List.mem_cons.mp hq with rfl | hq
      · exact le_refl _
      · exact (ha q hq).le
    · rw [List.find?_cons_of_neg _ (by simpa using hp)] at h
      obtain ⟨hmem, hle, hmin⟩ := ih has h
      refine ⟨List.mem_cons_of_mem a hmem, hle, ?_⟩
      intro q hq hsq
      rcases List.mem_cons.mp hq with rfl | hq
      · exact absurd hsq hp
      · exact hmin q hq hsq

/-- For any speed at most 999, the table search succeeds. -/
theorem bft_find_some (speed : ℚ) (h : speed ≤ 999) :
    ∃ r, bft_table.find? (fun x => decide (x.1 ≥ speed)) = some r := by
  cases hf : bft_table.find? (fun x => decide (x.1 ≥ speed)) with
  | some r => exact ⟨r, rfl⟩
  | none =>
    have := List.find?_eq_none.mp hf _ bft_table_last
    simp only [ge_iff_le, decide_eq_true_eq] at this
    exact absurd h this

/-! ## Claim C2 -/

/-- C2: for every speed with 0 ≤ speed ≤ 999, `ms_to_bft` returns the Beaufort
number of the table row with the smallest threshold ≥ speed; in particular
`ms_to_bft 0.3 = 0`, `ms_to_bft 0.31 = 1` and `ms_to_bft 999 = 12`. -/
theorem c2_ms_to_bft_smallest_match :
    (∀ speed : ℚ, 0 ≤ speed → speed ≤ 999 →
      ∃ r ∈ bft_table, speed ≤ r.1 ∧ (∀ q ∈ bft_table, speed ≤ q.1 → r.1 ≤ q.1) ∧
        ms_to_bft speed = r.2)
    ∧ ms_to_bft (3/10) = 0 ∧ ms_to_bft (31/100) = 1 ∧ ms_to_bft 999 = 12 := by
  refine ⟨?_, ?_, ?_, ?_⟩
  · intro speed h0 h999
    obtain ⟨r, hr⟩ := bft_find_some speed h999
    obtain ⟨hmem, hle, hmin⟩ := find_min_of_sorted bft_table_pairwise speed hr
    exact ⟨r, hmem, hle, hmin, by rw [ms_to_bft_eq_find, hr]⟩
  · rw [ms_to_bft_eq_find]
    norm_num [bft_table, List.find?]
  · rw [ms_to_bft_eq_find]
    norm_num [bft_table, List.find?]
  · rw [ms_to_bft_eq_find]
    norm_num [bft_table, List.find?]

/-- C2 witness: the universal part of `c2_ms_to_bft_smallest_match`
instantiated at speed 17. -/
theorem c2_witness :
    ∃ r ∈ bft_table, (17:ℚ) ≤ r.1 ∧ (∀ q ∈ bft_table, (17:ℚ) ≤ q.1 → r.1 ≤ q.1) ∧
      ms_to_bft 17 = r.2 :=
  c2_ms_to_bft_smallest_match.1 17 (by norm_num) (by norm_num)

/-! ## Claim C3 -/

/-- C3 counterexample: the claim quantifies over all s ≥ 0, but at s = 1000
the lookup misses every row and returns the sentinel −1, so `ms_to_bft` is
neither monotone from 999 to 1000 nor within [0, 12] at 1000. -/
theorem c3_counterexample :
    (0:ℚ) ≤ 999 ∧ (999:ℚ) ≤ 1000 ∧ ms_to_bft 999 = 12 ∧ ms_to_bft 1000 = -1 ∧
    ¬ (ms_to_bft 999 ≤ ms_to_bft 1000) ∧ ¬ ((0:ℤ) ≤ ms_to_bft 1000) := by
  have h12 : ms_to_bft 999 = 12 := by
    rw [ms_to_bft_eq_find]
    norm_num [bft_table, List.find?]
  have hm : ms_to_bft 1000 = -1 := by
    rw [ms_to_bft_eq_find]
    norm_num [bft_table, List.find?]
  refine ⟨by norm_num, by norm_num, h12, hm, ?_, ?_⟩
  · rw [h12, hm]
    decide
  · rw [hm]
    decide

/-- C3 (amended): on the interval where some row matches — 0 ≤ s ≤ 999 —
`ms_to_bft` is monotonically non-decreasing and its result lies in [0, 12];
beyond 999 it returns the sentinel −1 (see the counterexample). -/
theorem c3_amended (s1 s2 : ℚ) :
    (0 ≤ s1 → s1 ≤ s2 → s2 ≤ 999 → ms_to_bft s1 ≤ ms_to_bft s2) ∧
    (0 ≤ s1 → s1 ≤ 999 → 0 ≤ ms_to_bft s1 ∧ ms_to_bft s1 ≤ 12) := by
  constructor
  · intro _ h12 h999
    obtain ⟨r1, hr1⟩ := bft_find_some s1 (le_trans h12 h999)
    obtain ⟨r2, hr2⟩ := bft_find_some s2 h999
    obtain ⟨hm1, _, hmin1⟩ := find_min_of_sorted bft_table_pairwise s1 hr1
    obtain ⟨hm2, hle2, _⟩ := find_min_of_sorted bft_table_pairwise s2 hr2
    have hth : r1.1 ≤ r2.1 := hmin1 r2 hm2 (le_trans h12 hle2)
    have hbft := bft_table_mono r1 hm1 r2 hm2 hth
    rw [ms_to_bft_eq_find s1, hr1, ms_to_bft_eq_find s2, hr2]
    exact hbft
  · intro _ h999
    obtain ⟨r, hr⟩ := bft_find_some s1 h999
    obtain ⟨hm, _, _⟩ := find_min_of_sorted bft_table_pairwise s1 hr
    rw [ms_to_bft_eq_find s1, hr]
    exact bft_table_range r hm

/-- C3 witness: `c3_amended` at the concrete speeds 2 ≤ 10 and 5. -/
theorem c3_witness :
    (ms_to_bft 2 ≤ ms_to_bft 10) ∧ (0 ≤ ms_to_bft 5 ∧ ms_to_bft 5 ≤ 12) :=
  ⟨(c3_amended 2 10).1 (by norm_num) (by norm_num) (by norm_num),
   (c3_amended 5 0).2 (by norm_num) (by norm_num)⟩

/-! ## Claim C4 -/

/-- C4 counterexample: a negative speed satisfies *every* row's
`threshold ≥ speed`, so the lookup matches the first row and returns 0 — not
the error sentinel the claim (and spec) predict for negative input. -/
theorem c4_counterexample :
    ms_to_bft (-1) = 0 ∧ ms_to_bft (-1) ≠ -1 ∧
    Env.mps_to_beaufort (-1) = some 0 ∧ Env.mps_to_beaufort (-1) ≠ none := by
  have h1 : ms_to_bft (-1) = 0 := by
    rw [ms_to_bft_eq_find]
    norm_num [bft_table, List.find?]
  have h2 : Env.mps_to_beaufort (-1) = some 0 := by
    rw [mps_to_beaufort_eq_find]
    norm_num [bft_table, List.find?]
  refine ⟨h1, ?_, h2, ?_⟩
  · rw [h1]
    decide
  · rw [h2]
    decide

/-- C4 (amended): the no-match case arises exactly for speeds above the
table's 999 upper bound; there `ms_to_bft` returns the sentinel −1 and
`Env.mps_to_beaufort` returns `None`, without raising (negative speeds match
the first row and yield 0, see the counterexample). -/
theorem c4_amended (speed : ℚ) (h : 999 < speed) :
    ms_to_bft speed = -1 ∧ Env.mps_to_beaufort speed = none := by
  have hf : bft_table.find? (fun x => decide (x.1 ≥ speed)) = none := by
    rw [List.find?_eq_none]
    intro x hx
    simp only [ge_iff_le, decide_eq_true_eq, not_le]
    exact lt_of_le_of_lt (bft_table_max x hx) h
  constructor
  · rw [ms_to_bft_eq_find, hf]
  · rw [mps_to_beaufort_eq_find, hf]
    rfl

/-- C4 witness: `c4_amended` at speed 1000. -/
theorem c4_witness :
    ms_to_bft 1000 = -1 ∧ Env.mps_to_beaufort 1000 = none :=
  c4_amended 1000 (by norm_num)

/-! ## Claim C5 -/

/-- C5: contrary to the spec's no-escaping-exception policy,
`Env.kmh_to_beaufort` raises `NameError` on *every* input: its body calls
`mps_to_beaufort` as a bare name, which is bound neither at module level nor
visible from the static method's scope, and nothing catches the exception. -/
theorem c5_kmh_to_beaufort_always_raises (speed : ℚ) :
    Env.kmh_to_beaufort speed =
      Except.error ("NameError: name mps_to_beaufort is not defined") := by
  have h : ("mps_to_beaufort") ∉ envModuleGlobals := by decide
  unfold Env.kmh_to_beaufort
  rw [if_neg h]

/-! ## Claim C6 -/

/-- C6 counterexample: `init_lib` only *sorts* the names — `sorted(...)` never
deduplicates, so `foo.bar.py` and `foo.py` both yield the name `foo` — and a
name is the part before the *first* dot, not the extension-stripped base name
(`a.b.py` yields `a`, while its `.py`-stripped base name is `a.b`). -/
theorem c6_counterexample :
    init_lib ["foo.bar.py", "foo.py"] = ["foo", "foo"] ∧
    ¬ (init_lib ["foo.bar.py", "foo.py"]).Nodup ∧
    init_lib ["a.b.py"] = ["a"] ∧
    ¬ (∀ name ∈ init_lib ["a.b.py"],
        ∃ f ∈ ["a.b.py"], pyEndsWith f (".py") = true ∧ name = spec_strip_extension f) := by
  have h1 : ((["foo.bar.py", "foo.py"].filter (fun f => pyEndsWith f (".py"))).map pySplitHead)
      = ["foo", "foo"] := by decide
  have h2 : (((["a.b.py"] : List String).filter (fun f => pyEndsWith f (".py"))).map pySplitHead)
      = ["a"] := by decide
  have e1 : init_lib ["foo.bar.py", "foo.py"] = ["foo", "foo"] := by
    unfold init_lib
    rw [h1]
    exact List.mergeSort_of_sorted (by simp [List.pairwise_cons])
  have e2 : init_lib ["a.b.py"] = ["a"] := by
    unfold init_lib
    rw [h2]
    exact List.mergeSort_of_sorted (by simp)
  refine ⟨e1, ?_, e2, ?_⟩
  · rw [e1]
    decide
  · rw [e2]
    decide

/-- C6 (amended): after `init_lib`, the registry is sorted in ascending order
and its names are exactly the parts before the first dot of the `.py` files
in the listing (with multiplicity — duplicates are *not* removed, and a file
name with an inner dot is cut at that dot, not at the extension). -/
theorem c6_amended (listing : List String) :
    (init_lib listing).Sorted (· ≤ ·) ∧
    (∀ name ∈ init_lib listing,
      ∃ f ∈ listing, pyEndsWith f (".py") = true ∧ name = pySplitHead f) ∧
    (∀ f ∈ listing, pyEndsWith f (".py") = true → pySplitHead f ∈ init_lib listing) := by
  refine ⟨?_, ?_, ?_⟩
  · unfold init_lib
    simpa using List.sorted_mergeSort' (α := String) _
  · intro name hname
    unfold init_lib at hname
    rw [(List.mergeSort_perm _ _).mem_iff] at hname
    obtain ⟨f, hf, rfl⟩ := List.mem_map.mp hname
    obtain ⟨hfl, hfp⟩ := List.mem_filter.mp hf
    exact ⟨f, hfl, hfp, rfl⟩
  · intro f hf hpy
    unfold init_lib
    rw [(List.mergeSort_perm _ _).mem_iff]
    exact List.mem_map_of_mem _ (List.mem_filter.mpr ⟨hf, hpy⟩)

/-- C6 witness: `c6_amended` on the concrete listing `["b.py", "a.py"]`. -/
theorem c6_witness :
    (init_lib ["b.py", "a.py"]).Sorted (· ≤ ·) ∧
    (∀ name ∈ init_lib ["b.py", "a.py"],
      ∃ f ∈ ["b.py", "a.py"], pyEndsWith f (".py") = true ∧ name = pySplitHead f) ∧
    (∀ f ∈ ["b.py", "a.py"], pyEndsWith f (".py") = true →
      pySplitHead f ∈ init_lib ["b.py", "a.py"]) :=
  c6_amended ["b.py", "a.py"]

/-! ## Claim C7 -/

/-- C7: `reload` of an unregistered name fails immediately; `reload` of a
registered name that is not bound in the globals falls back to a fresh
`import_user_module` and returns its success flag and state; any other
exception from the reload yields failure with the state unchanged. -/
theorem c7_reload_error_paths (importModule : String → Option UserModule)
    (reloadOutcome : String → ExecOutcome) (st : UFState) (userlib : String) :
    (userlib ∉ st.user_modules →
      reload importModule reloadOutcome st userlib = (false, st)) ∧
    (userlib ∈ st.user_modules → userlib ∉ st.bound →
      reload importModule reloadOutcome st userlib =
        ((import_user_module importModule st userlib).1,
         (import_user_module importModule st userlib).2.1)) ∧
    (∀ msg, userlib ∈ st.user_modules → userlib ∈ st.bound →
      reloadOutcome userlib = ExecOutcome.errOther msg →
      reload importModule reloadOutcome st userlib = (false, st)) := by
  refine ⟨?_, ?_, ?_⟩
  · intro h
    simp [reload, h]
  · intro h1 h2
    simp [reload, h1, h2]
  · intro msg h1 h2 h3
    simp [reload, h1, h2, h3]

/-- C7 witness: the three branches of `c7_reload_error_paths` at concrete
states — an unregistered name, a registered-but-unbound name whose fallback
re-import fails, and a registered bound name whose reload raises. -/
theorem c7_witness :
    reload (fun _ => none) (fun _ => ExecOutcome.success) ⟨["foo"], []⟩ ("missing")
      = (false, ⟨["foo"], []⟩) ∧
    reload (fun _ => none) (fun _ => ExecOutcome.success) ⟨["foo"], []⟩ ("foo")
      = (false, ⟨["foo"], []⟩) ∧
    reload (fun _ => none) (fun _ => ExecOutcome.errOther ("boom")) ⟨["foo"], ["foo"]⟩ ("foo")
      = (false, ⟨["foo"], ["foo"]⟩) := by
  refine ⟨?_, ?_, ?_⟩
  · exact (c7_reload_error_paths _ _ _ _).1 (by decide)
  · have h := (c7_reload_error_paths (fun _ => none) (fun _ => ExecOutcome.success)
      ⟨["foo"], []⟩ "foo").2.1 (by decide) (by decide)
    simpa [import_user_module] using h
  · exact (c7_reload_error_paths _ _ _ _).2.2 "boom" (by decide) (by decide) rfl

/-! ## Helper lemmas for the wind-direction claims -/

theorem pymod_eq_fract (x : ℚ) : pymod x 360 = 360 * Int.fract (x / 360) := by
  unfold pymod Int.fract
  ring

theorem pymod_nonneg (x : ℚ) : 0 ≤ pymod x 360 := by
  rw [pymod_eq_fract]
  exact mul_nonneg (by norm_num) (Int.fract_nonneg _)

theorem pymod_lt (x : ℚ) : pymod x 360 < 360 := by
  rw [pymod_eq_fract]
  have h := Int.fract_lt_one (x / 360)
  linarith

theorem dir8_index_nonneg (deg : ℚ) : 0 ≤ ⌊(pymod deg 360 + 45/2) / 45⌋ := by
  have h := pymod_nonneg deg
  rw [Int.le_floor]
  push_cast
  exact div_nonneg (by linarith) (by norm_num)

theorem dir8_index_lt (deg : ℚ) : ⌊(pymod deg 360 + 45/2) / 45⌋ < 9 := by
  have h := pymod_lt deg
  rw [Int.floor_lt]
  push_cast
  rw [div_lt_iff₀ (by norm_num : (0:ℚ) < 45)]
  linarith

theorem dir16_index_nonneg (deg : ℚ) : 0 ≤ ⌊(pymod deg 360 + 45/4) / (45/2)⌋ := by
  have h := pymod_nonneg deg
  rw [Int.le_floor]
  push_cast
  exact div_nonneg (by linarith) (by norm_num)

theorem dir16_index_lt (deg : ℚ) : ⌊(pymod deg 360 + 45/4) / (45/2)⌋ < 17 := by
  have h := pymod_lt deg
  rw [Int.floor_lt]
  push_cast
  rw [div_lt_iff₀ (by norm_num : (0:ℚ) < 45/2)]
  linarith

/-! ## Claim C8 -/

/-- C8: both wind-direction methods index their label array at
`⌊(deg mod 360 + half_step) / step⌋`, the index is always in bounds (so the
lookup never raises), and the cited examples hold, including the mod-360
normalization of negative bearings. -/
theorem c8_wind_direction :
    (∀ deg : ℚ,
      Env.get_wind_direction8 deg
          = direction_array8.get? (⌊(pymod deg 360 + 45/2) / 45⌋).toNat ∧
      (Env.get_wind_direction8 deg).isSome = true ∧
      Env.get_wind_direction16 deg
          = direction_array16.get? (⌊(pymod deg 360 + 45/4) / (45/2)⌋).toNat ∧
      (Env.get_wind_direction16 deg).isSome = true) ∧
    Env.get_wind_direction8 0 = some ("N") ∧
    Env.get_wind_direction8 45 = some ("NO") ∧
    Env.get_wind_direction8 360 = some ("N") ∧
    Env.get_wind_direction8 (-10) = Env.get_wind_direction8 350 := by
  have key : ∀ deg : ℚ,
      Env.get_wind_direction8 deg
          = direction_array8.get? (⌊(pymod deg 360 + 45/2) / 45⌋).toNat ∧
      (Env.get_wind_direction8 deg).isSome = true ∧
      Env.get_wind_direction16 deg
          = direction_array16.get? (⌊(pymod deg 360 + 45/4) / (45/2)⌋).toNat ∧
      (Env.get_wind_direction16 deg).isSome = true := by
    intro deg
    have h8a := dir8_index_nonneg deg
    have h8b := dir8_index_lt deg
    have h16a := dir16_index_nonneg deg
    have h16b := dir16_index_lt deg
    have harg8 : 0 ≤ (pymod deg 360 + 45/2) / 45 :=
      div_nonneg (by have := pymod_nonneg deg; linarith) (by norm_num)
    have harg16 : 0 ≤ (pymod deg 360 + 45/4) / (45/2) :=
      div_nonneg (by have := pymod_nonneg deg; linarith) (by norm_num)
    have e8 : Env.get_wind_direction8 deg
        = direction_array8.get? (⌊(pymod deg 360 + 45/2) / 45⌋).toNat := by
      unfold Env.get_wind_direction8 pyint pyGetItem
      rw [if_pos harg8, if_pos h8a]
    have e16 : Env.get_wind_direction16 deg
        = direction_array16.get? (⌊(pymod deg 360 + 45/4) / (45/2)⌋).toNat := by
      unfold Env.get_wind_direction16 pyint pyGetItem
      rw [if_pos harg16, if_pos h16a]
    have hlen8 : (⌊(pymod deg 360 + 45/2) / 45⌋).toNat < direction_array8.length := by
      have : (⌊(pymod deg 360 + 45/2) / 45⌋).toNat < 9 := by omega
      simpa [direction_array8] using this
    have hlen16 : (⌊(pymod deg 360 + 45/4) / (45/2)⌋).toNat < direction_array16.length := by
      have : (⌊(pymod deg 360 + 45/4) / (45/2)⌋).toNat < 17 := by omega
      simpa [direction_array16] using this
    refine ⟨e8, ?_, e16, ?_⟩
    · rw [e8, List.get?_eq_getElem?, List.getElem?_eq_getElem hlen8]
      rfl
    · rw [e16, List.get?_eq_getElem?, List.getElem?_eq_getElem hlen16]
      rfl
  refine ⟨key, ?_, ?_, ?_, ?_⟩
  · have hm : pymod 0 360 = 0 := by
      unfold pymod
      norm_num
    have hi : ⌊((0:ℚ) + 45/2) / 45⌋ = 0 := by
      rw [Int.floor_eq_iff]; norm_num
    rw [(key 0).1, hm, hi]
    decide
  · have hm : pymod 45 360 = 45 := by
      unfold pymod
      rw [show ⌊(45:ℚ) / 360⌋ = 0 from by rw [Int.floor_eq_iff]; norm_num]
      norm_num
    have hi : ⌊((45:ℚ) + 45/2) / 45⌋ = 1 := by
      rw [Int.floor_eq_iff]; norm_num
    rw [(key 45).1, hm, hi]
    decide
  · have hm : pymod 360 360 = 0 := by
      unfold pymod
      rw [show ⌊(360:ℚ) / 360⌋ = 1 from by rw [Int.floor_eq_iff]; norm_num]
      norm_num
    have hi : ⌊((0:ℚ) + 45/2) / 45⌋ = 0 := by
      rw [Int.floor_eq_iff]; norm_num
    rw [(key 360).1, hm, hi]
    decide
  · have hmA : pymod (-10) 360 = 350 := by
      unfold pymod
      rw [show ⌊(-10:ℚ) / 360⌋ = -1 from by rw [Int.floor_eq_iff]; norm_num]
      norm_num
    have hmB : pymod 350 360 = 350 := by
      unfold pymod
      rw [show ⌊(350:ℚ) / 360⌋ = 0 from by rw [Int.floor_eq_iff]; norm_num]
      norm_num
    rw [(key (-10)).1, (key 350).1, hmA, hmB]

/-! ## Claim C1 -/

/-- C1 counterexample: the module-level free functions and the `Env` static
methods are *not* observably equivalent — at 1 knot the free `kn_to_kmh`
returns 1852 while `Env.kn_to_kmh` returns 1.852, and at 1852 km/h the free
`kmh_to_kn` returns 1 while `Env.kmh_to_kn` returns 1000. -/
theorem c1_counterexample :
    kn_to_kmh 1 = 1852 ∧ Env.kn_to_kmh 1 = 1852 / 1000 ∧
    kn_to_kmh 1 ≠ Env.kn_to_kmh 1 ∧
    kmh_to_kn 1852 = 1 ∧ Env.kmh_to_kn 1852 = 1000 ∧
    kmh_to_kn 1852 ≠ Env.kmh_to_kn 1852 := by
  norm_num [kn_to_kmh, Env.kn_to_kmh, kmh_to_kn, Env.kmh_to_kn, nautical_mile_const]

/-- C1 (amended): the two knots↔km/h conversion surfaces differ by an exact
factor of 1000 on every speed: the free `kn_to_kmh` returns 1000 times the
`Env` static method's result, and the `Env` static `kmh_to_kn` returns 1000
times the free function's result; they agree only at speed 0. -/
theorem c1_amended (x : ℚ) :
    kn_to_kmh x = 1000 * Env.kn_to_kmh x ∧
    Env.kmh_to_kn x = 1000 * kmh_to_kn x := by
  constructor
  · unfold kn_to_kmh Env.kn_to_kmh nautical_mile_const
    ring
  · unfold kmh_to_kn Env.kmh_to_kn nautical_mile_const
    norm_num
    ring

/-! ## Claim C9 -/

/-- C9: for an integer Beaufort number in [0, 12], `bft_to_text` returns the
`bft`-th entry of the German table when the language lower-cases to `de` and
of the English table otherwise (the index is in bounds); a non-integer or
out-of-range argument yields the empty-string sentinel; and the cited
examples hold, including the English fallback for the unknown code `xx`. -/
theorem c9_bft_to_text :
    (∀ n : ℤ, 0 ≤ n → n ≤ 12 → ∀ language : String,
      (pyToLower language = "de" →
        beaufort_descriptions_de.get? n.toNat
          = some (bft_to_text (PyValue.intVal n) language)) ∧
      (pyToLower language ≠ "de" →
        beaufort_descriptions_en.get? n.toNat
          = some (bft_to_text (PyValue.intVal n) language))) ∧
    (∀ tag language, bft_to_text (PyValue.nonIntVal tag) language = "") ∧
    (∀ n : ℤ, (n < 0 ∨ 12 < n) → ∀ language,
      bft_to_text (PyValue.intVal n) language = "") ∧
    bft_to_text (PyValue.intVal 0) ("de") = "Windstille" ∧
    bft_to_text (PyValue.intVal 13) ("de") = "" ∧
    bft_to_text (PyValue.intVal 5) ("xx") = "Fresh breeze" := by
  refine ⟨?_, ?_, ?_, by decide, by decide, by decide⟩
  · intro n h0 h12 language
    have hrange : ¬ (n < 0 ∨ 12 < n) := by omega
    have hlt_de : n.toNat < beaufort_descriptions_de.length := by
      simp only [beaufort_descriptions_de, List.length_cons, List.length_nil]
      omega
    have hlt_en : n.toNat < beaufort_descriptions_en.length := by
      simp only [beaufort_descriptions_en, List.length_cons, List.length_nil]
      omega
    constructor
    · intro hde
      simp only [bft_to_text, hrange, if_false, hde, if_true, if_pos]
      rw [List.get?_eq_getElem?, List.getElem?_eq_getElem hlt_de]
      simp [List.getElem?_eq_getElem hlt_de]
    · intro hnde
      simp only [bft_to_text, hrange, if_false, hnde, if_pos]
      rw [List.get?_eq_getElem?, List.getElem?_eq_getElem hlt_en]
      simp [List.getElem?_eq_getElem hlt_en]
  · intro tag language
    rfl
  · intro n hout language
    simp [bft_to_text, hout]

/-- C9 witness: the universal parts of `c9_bft_to_text` instantiated at
Beaufort number 5 with language codes `DE` (German branch) and `xx` (English
fallback), and a non-integer and out-of-range argument. -/
theorem c9_witness :
    beaufort_descriptions_de.get? (5:ℤ).toNat
        = some (bft_to_text (PyValue.intVal 5) ("DE")) ∧
    beaufort_descriptions_en.get? (5:ℤ).toNat
        = some (bft_to_text (PyValue.intVal 5) ("xx")) ∧
    bft_to_text (PyValue.nonIntVal ("None")) ("de") = "" ∧
    bft_to_text (PyValue.intVal (-3)) ("de") = "" :=
  ⟨((c9_bft_to_text.1 5 (by norm_num) (by norm_num) "DE").1 (by decide)),
   ((c9_bft_to_text.1 5 (by norm_num) (by norm_num) "xx").2 (by decide)),
   c9_bft_to_text.2.1 ("None") ("de"),
   c9_bft_to_text.2.2.1 (-3) (by norm_num) ("de")⟩

/-! ## Claim C10 -/

/-- C10: a successful `import_user_module` writes the placeholder `?.?.?`
(resp. `?`) into the imported module object when `_VERSION`
(resp. `_DESCRIPTION`) is absent — the import mutates the user module — while
a module defining both attributes is returned unchanged and its attribute
values are the ones used for the log message. -/
theorem c10_import_metadata (importModule : String → Option UserModule)
    (st : UFState) (m : String) :
    ∀ md : UserModule, importModule m = some md →
      (md.version = none →
        ∃ md' v d, import_user_module importModule st m
            = (true, { st with bound := m :: st.bound }, some (md', v, d)) ∧
          md'.version = some ("?.?.?") ∧ v = "?.?.?") ∧
      (md.description = none →
        ∃ md' v d, import_user_module importModule st m
            = (true, { st with bound := m :: st.bound }, some (md', v, d)) ∧
          md'.description = some ("?") ∧ d = "?") ∧
      (∀ v d, md.version = some v → md.description = some d →
        import_user_module importModule st m
          = (true, { st with bound := m :: st.bound }, some (md, v, d))) := by
  intro md hmd
  refine ⟨?_, ?_, ?_⟩
  · intro hv
    cases hd : md.description with
    | none =>
      refine ⟨{ version := some ("?.?.?"), description := some ("?") }, "?.?.?", "?", ?_, rfl, rfl⟩
      simp [import_user_module, hmd, hv, hd]
    | some d =>
      refine ⟨{ version := some ("?.?.?"), description := some d }, "?.?.?", d, ?_, rfl, rfl⟩
      simp [import_user_module, hmd, hv, hd]
  · intro hd
    cases hv : md.version with
    | none =>
      refine ⟨{ version := some ("?.?.?"), description := some ("?") }, "?.?.?", "?", ?_, rfl, rfl⟩
      simp [import_user_module, hmd, hv, hd]
    | some v =>
      refine ⟨{ version := some v, description := some ("?") }, v, "?", ?_, rfl, rfl⟩
      obtain ⟨mv, mdd⟩ := md
      simp only at hv hd
      subst hv hd
      simp [import_user_module, hmd]
  · intro v d hv hd
    obtain ⟨mv, mdd⟩ := md
    simp only at hv hd
    subst hv hd
    simp [import_user_module, hmd]

/-- C10 witness: `c10_import_metadata` at a concrete module lacking
`_VERSION` but carrying `_DESCRIPTION`, and at a module carrying both. -/
theorem c10_witness :
    (∃ md' v d,
      import_user_module (fun _ => some ⟨none, some ("desc")⟩) ⟨["foo"], []⟩ "foo"
        = (true, ⟨["foo"], ["foo"]⟩, some (md', v, d)) ∧
      md'.version = some ("?.?.?") ∧ v = "?.?.?") ∧
    import_user_module (fun _ => some ⟨some ("1.0.0"), some ("desc")⟩) ⟨["foo"], []⟩ "foo"
      = (true, ⟨["foo"], ["foo"]⟩, some (⟨some ("1.0.0"), some ("desc")⟩, "1.0.0", "desc")) :=
  ⟨(c10_import_metadata (fun _ => some ⟨none, some ("desc")⟩) ⟨["foo"], []⟩ "foo"
      ⟨none, some ("desc")⟩ rfl).1 rfl,
   (c10_import_metadata (fun _ => some ⟨some ("1.0.0"), some ("desc")⟩) ⟨["foo"], []⟩ "foo"
      ⟨some ("1.0.0"), some ("desc")⟩ rfl).2.2 "1.0.0" "desc" rfl rfl⟩
